import Mathlib

/-
Shallow embedding of `src/fplData.py`, a script that aggregates
fantasy-football league data (chip usage, captaincy, transfers) from
API responses into three tables.

Modelling conventions:
  * A Python dict with Nat keys is a function `Nat → Option α`
    (`Dict α`); a dict comprehension is `dictComp`, whose later pairs
    override earlier ones exactly as repeated keys do in Python.
  * An HTTP response is pre-decoded: a fetch that can return a
    non-success status is `Option payload` (`none` = non-2xx).
  * Direct dict indexing `d[k]` (which raises `KeyError` in Python) is
    a lookup in the `Option` monad; a `none` result models the raise.
  * `d.get(k, '-')` is a total lookup with the sentinel as default.
  * Python truthiness on `Optional[int]` (`if triple_captain_week:`,
    `if captain_id:`) is: the value is present and nonzero.
-/

/-- A Python dict with `Nat` keys, as a partial lookup function. -/
def Dict (α : Type) : Type := Nat → Option α

/-- The empty dict. -/
def dempty {α : Type} : Dict α := fun _ => none

/-- `d[k] = v` assignment. -/
def dset {α : Type} (d : Dict α) (k : Nat) (v : α) : Dict α :=
  fun q => if q = k then some v else d q

/-- A Python dict comprehension over a pair list: a later pair with the
same key overrides an earlier one (last write wins). -/
def dictComp {α : Type} : List (Nat × α) → Dict α
  | [] => dempty
  | (k, v) :: rest => fun q =>
      match dictComp rest q with
      | some w => some w
      | none => if q = k then some v else none

/-- `d.get(k)`: a missing key and a stored `None` both come back as
`none` (Python returns `None` in both cases). -/
def flatGet (d : Dict (Option Nat)) (k : Nat) : Option Nat :=
  (d k).getD none

/-- Python truthiness of an `Optional[int]`: present and nonzero. -/
def truthy : Option Nat → Bool
  | none => false
  | some n => n ≠ 0

/-- A cell of an output table: the sentinel `'-'`, a gameweek number,
a point total, or a string. -/
inductive Cell where
  | dash : Cell
  | nat : Nat → Cell
  | int : Int → Cell
  | str : String → Cell
deriving DecidableEq, Repr

/-- `d.get(k, '-')` over a string-valued dict. -/
def cellOfOptStr : Option String → Cell
  | some s => .str s
  | none => .dash

/-- `d.get(k, '-')` over an int-valued dict. -/
def cellOfOptInt : Option Int → Cell
  | some n => .int n
  | none => .dash

/- ===== Bootstrap catalog (fplData.py lines 24-32) ===== -/

/-- One entry of the bootstrap `elements` list. -/
structure Element where
  id : Nat
  web_name : String
  team : Nat
  element_type : Nat
deriving DecidableEq, Repr

/-- One entry of the bootstrap `teams` list. -/
structure TeamEntry where
  name : String
deriving DecidableEq, Repr

/-- One entry of the bootstrap `element_types` list. -/
structure PositionEntry where
  singular_name : String
deriving DecidableEq, Repr

/-- The decoded bootstrap-static response. -/
structure Bootstrap where
  elements : List Element
  teams : List TeamEntry
  positions : List PositionEntry
deriving Repr

/-- A list `mapM` over `Option`, written structurally (Python raises at
the first failing item of a comprehension, producing no dict at all). -/
def mapOptM {α β : Type} (f : α → Option β) : List α → Option (List β)
  | [] => some []
  | a :: as => do
    let b ← f a
    let bs ← mapOptM f as
    pure (b :: bs)

/-- `id_to_name = {e['id']: e['web_name'] for e in elements}` (line 30). -/
def id_to_name (b : Bootstrap) : Dict String :=
  dictComp (b.elements.map (fun e => (e.id, e.web_name)))

/-- `id_to_team` (line 31): `teams[e['team'] - 1]['name']` raises when
the team index is out of range, so the whole construction is `Option`. -/
def id_to_team (b : Bootstrap) : Option (Dict String) :=
  (mapOptM (fun e => (b.teams.get? (e.team - 1)).map (fun t => (e.id, t.name)))
    b.elements).map dictComp

/-- `id_to_position` (line 32), same shape as `id_to_team`. -/
def id_to_position (b : Bootstrap) : Option (Dict String) :=
  (mapOptM
    (fun e => (b.positions.get? (e.element_type - 1)).map
      (fun p => (e.id, p.singular_name)))
    b.elements).map dictComp

/- ===== League standings and API inputs ===== -/

/-- One chip of an entry's season history: `{'name': …, 'event': …}`. -/
structure Chip where
  name : String
  event : Nat
deriving DecidableEq, Repr

/-- One pick of an entry's gameweek squad. -/
structure Pick where
  element : Nat
  is_captain : Bool
deriving DecidableEq, Repr

/-- One element of a gameweek's live response, flattened to the one
stat the script reads (`p['stats']['total_points']`). -/
structure LiveElem where
  id : Nat
  total_points : Int
deriving DecidableEq, Repr

/-- One item of an entry's transfer log. -/
structure Transfer where
  element_in : Nat
  element_out : Nat
  event : Nat
deriving DecidableEq, Repr

/-- Every remote input of the script, pre-decoded. `none` models a
non-success HTTP status for the fallible per-entry / per-gameweek
fetches (the two initial fetches, standings and bootstrap, have no
status check in the script and are taken as already succeeded). -/
structure Api where
  standings : List (Nat × String × String)
  bootstrap : Bootstrap
  histResp : Nat → Option (List Chip)
  picksResp : Nat → Nat → Option (List Pick)
  liveResp : Nat → Option (List LiveElem)
  transfersResp : Nat → Option (List Transfer)

/-- `entry_map` (lines 15-20): entry id to (manager name, team name). -/
def entry_map (api : Api) : Dict (String × String) :=
  dictComp (api.standings.map (fun s => (s.1, s.2)))

/-- First-occurrence deduplication with a seen-set accumulator. -/
def dedupKeysAux (seen : List Nat) : List Nat → List Nat
  | [] => []
  | k :: ks =>
    if k ∈ seen then dedupKeysAux seen ks
    else k :: dedupKeysAux (k :: seen) ks

/-- First-occurrence deduplication, as `dict.keys()` orders keys. -/
def dedupKeys (l : List Nat) : List Nat := dedupKeysAux [] l

/-- `entries = list(entry_map.keys())` (line 22). -/
def entries (api : Api) : List Nat :=
  dedupKeys (api.standings.map (fun s => s.1))

/-- `entry_map[entry_id]`: the indexing cannot raise because the loops
run over the map's own keys; the default is never read. -/
def entryNames (api : Api) (e : Nat) : String × String :=
  (entry_map api e).getD ("", "")

/- ===== Step 1: chip usage (lines 34-100) ===== -/

/-- The chip row of one entry (`chip_dict`, lines 44-54); the two name
columns are kept separately, the seven chip columns here. -/
structure ChipRec where
  managerName : String
  teamName : String
  wildcard1 : Cell
  wildcard2 : Cell
  freeHit : Cell
  benchBoost : Cell
  tripleCaptain : Cell
  tripleCaptainPlayer : Cell
  tcPoints : Cell
deriving DecidableEq, Repr

/-- `chip_dict` as initialised (lines 44-54): every chip field `'-'`. -/
def initChipRec (mn tn : String) : ChipRec :=
  { managerName := mn, teamName := tn,
    wildcard1 := .dash, wildcard2 := .dash, freeHit := .dash,
    benchBoost := .dash, tripleCaptain := .dash,
    tripleCaptainPlayer := .dash, tcPoints := .dash }

/-- The loop state of lines 56-76: the record under construction plus
the two remembered gameweeks. -/
structure ChipAcc where
  cd : ChipRec
  free_hit_week : Option Nat
  triple_captain_week : Option Nat
deriving Repr

/-- One iteration of the `for chip in chips` loop (lines 61-76). -/
def applyChip (a : ChipAcc) (c : Chip) : ChipAcc :=
  if c.name = "wildcard" then
    if c.event ≤ 20 then { a with cd := { a.cd with wildcard1 := .nat c.event } }
    else { a with cd := { a.cd with wildcard2 := .nat c.event } }
  else if c.name = "freehit" then
    { a with cd := { a.cd with freeHit := .nat c.event },
             free_hit_week := some c.event }
  else if c.name = "3xc" then
    { a with cd := { a.cd with tripleCaptain := .nat c.event },
             triple_captain_week := some c.event }
  else if c.name = "bboost" then
    { a with cd := { a.cd with benchBoost := .nat c.event } }
  else a

/-- `next((p['element'] for p in picks if p['is_captain']), None)`. -/
def firstCaptain : List Pick → Option Nat
  | [] => none
  | p :: ps => if p.is_captain then some p.element else firstCaptain ps

/-- `player_stats` / `player_points_map`: live elements keyed by id. -/
def pointsMapOf (les : List LiveElem) : Dict Int :=
  dictComp (les.map (fun p => (p.id, p.total_points)))

/-- Lines 41-97 for one entry: the chip record plus the two remembered
gameweeks (free hit, triple captain). The secondary picks/live fetch
of lines 81-95 fills the triple-captain player and points fields. -/
def chipRow (api : Api) (e : Nat) : ChipRec × Option Nat × Option Nat :=
  let names := entryNames api e
  let a0 : ChipAcc := ⟨initChipRec names.1 names.2, none, none⟩
  let a : ChipAcc :=
    match api.histResp e with
    | some chips => chips.foldl applyChip a0
    | none => a0
  let cd : ChipRec :=
    if truthy a.triple_captain_week then
      match a.triple_captain_week with
      | some tcw =>
        match api.picksResp e tcw, api.liveResp tcw with
        | some picks, some les =>
          if truthy (firstCaptain picks) then
            match firstCaptain picks with
            | some cid =>
              { a.cd with
                tripleCaptainPlayer := cellOfOptStr (id_to_name api.bootstrap cid),
                tcPoints := cellOfOptInt (pointsMapOf les cid) }
            | none => a.cd
          else a.cd
        | some _, none => a.cd
        | none, some _ => a.cd
        | none, none => a.cd
      | none => a.cd
    else a.cd
  (cd, a.free_hit_week, a.triple_captain_week)

/-- `chip_data` (one record appended per entry, line 97). -/
def chip_data (api : Api) : List ChipRec :=
  (entries api).map (fun e => (chipRow api e).1)

/-- `free_hit_by_entry` (line 78: set for every entry, maybe `None`). -/
def free_hit_by_entry (api : Api) : Dict (Option Nat) :=
  (entries api).foldl (fun d e => dset d e (chipRow api e).2.1) dempty

/-- `triple_captain_week_by_entry` (line 79). -/
def triple_captain_week_by_entry (api : Api) : Dict (Option Nat) :=
  (entries api).foldl (fun d e => dset d e (chipRow api e).2.2) dempty

/- ===== Step 2: captaincy (lines 102-145) ===== -/

/-- One row of the captaincy table (lines 135-142). -/
structure CapRec where
  managerName : String
  teamName : String
  gameweek : Nat
  captainName : String
  captainPoints : Cell
  tripleCaptainUsed : String
deriving DecidableEq, Repr

/-- The body of the inner entry loop (lines 117-142): `none` when the
picks fetch fails or no pick is captain-flagged (entry skipped). -/
def capRowFor (api : Api) (tcd : Dict (Option Nat)) (gw : Nat)
    (pm : Dict Int) (e : Nat) : Option CapRec :=
  match api.picksResp e gw with
  | none => none
  | some picks =>
    if truthy (firstCaptain picks) then
      match firstCaptain picks with
      | some cid =>
        let names := entryNames api e
        some { managerName := names.1, teamName := names.2, gameweek := gw,
               captainName := (id_to_name api.bootstrap cid).getD "-",
               captainPoints := cellOfOptInt (pm cid),
               tripleCaptainUsed :=
                 if flatGet tcd e = some gw then "Yes" else "No" }
      | none => none
    else none

/-- One gameweek of the outer loop (lines 105-142): an unavailable live
fetch skips the whole gameweek, otherwise each entry contributes at
most one row. -/
def capGw (api : Api) (tcd : Dict (Option Nat)) (gw : Nat) : List CapRec :=
  match api.liveResp gw with
  | none => []
  | some les => (entries api).filterMap (capRowFor api tcd gw (pointsMapOf les))

/-- The gameweek range `range(1, 39)` of the captaincy loop. -/
def gwRange : List Nat := (List.range 38).map (fun i => i + 1)

/-- `captaincy_data`: gameweeks 1..38 (`range(1, 39)`, line 105). -/
def captaincy_data (api : Api) : List CapRec :=
  (gwRange.map (capGw api (triple_captain_week_by_entry api))).flatten

/- ===== Step 3: transfers (lines 147-180) ===== -/

/-- One row of the transfers table (lines 163-174). -/
structure TransRec where
  managerName : String
  teamName : String
  gameweek : Nat
  playerOut : String
  outTeam : String
  outPosition : String
  playerIn : String
  inTeam : String
  inPosition : String
  freeHitActive : String
deriving DecidableEq, Repr

/-- Lines 161-174 for one transfer that passed the membership filter:
the six direct dict indexings, each a `KeyError` when `none`. -/
def transRow (nd td pd : Dict String) (fhd : Dict (Option Nat))
    (mn tn : String) (e : Nat) (t : Transfer) : Option TransRec := do
  let po ← nd t.element_out
  let ot ← td t.element_out
  let op ← pd t.element_out
  let pin ← nd t.element_in
  let it ← td t.element_in
  let ip ← pd t.element_in
  pure { managerName := mn, teamName := tn, gameweek := t.event,
         playerOut := po, outTeam := ot, outPosition := op,
         playerIn := pin, inTeam := it, inPosition := ip,
         freeHitActive :=
           if flatGet fhd e = some t.event then "Yes" else "No" }

/-- The `for t in transfers` loop (lines 157-174): line 158's filter
skips a transfer whose incoming or outgoing id is missing from
`id_to_name`; a surviving transfer is rendered by `transRow`. -/
def entryTransfers (nd td pd : Dict String) (fhd : Dict (Option Nat))
    (mn tn : String) (e : Nat) : List Transfer → Option (List TransRec)
  | [] => some []
  | t :: ts =>
    if (nd t.element_in).isSome && (nd t.element_out).isSome then do
      let r ← transRow nd td pd fhd mn tn e t
      let rest ← entryTransfers nd td pd fhd mn tn e ts
      pure (r :: rest)
    else entryTransfers nd td pd fhd mn tn e ts

/-- The `for entry_id in entries` loop of step 3 (lines 151-174): a
failed transfer-log fetch contributes no rows. -/
def allTransfersGo (api : Api) (nd td pd : Dict String)
    (fhd : Dict (Option Nat)) : List Nat → List TransRec → Option (List TransRec)
  | [], acc => some acc
  | e :: es, acc =>
    match api.transfersResp e with
    | none => allTransfersGo api nd td pd fhd es acc
    | some ts => do
      let names := entryNames api e
      let rs ← entryTransfers nd td pd fhd names.1 names.2 e ts
      allTransfersGo api nd td pd fhd es (acc ++ rs)

/-- `all_transfers` (lines 148-174), parametric in the three catalog
dicts (of which `id_to_team` / `id_to_position` are `Option`-built). -/
def all_transfers (api : Api) (nd td pd : Dict String) : Option (List TransRec) :=
  allTransfersGo api nd td pd (free_hit_by_entry api) (entries api) []

/- ===== The sort of line 179-180 ===== -/

/-- Lexicographic code-point comparison of char lists, the order Python
uses on strings. -/
def charsLe : List Char → List Char → Bool
  | [], _ => true
  | _ :: _, [] => false
  | a :: as, b :: bs => if a = b then charsLe as bs else decide (a < b)

/-- Python string `<=`. -/
def strLe (s t : String) : Bool := charsLe s.data t.data

/-- The sort key order of `sort_values(by=['Gameweek', 'Manager Name'])`:
by gameweek, ties broken by manager name. -/
def transLE (a b : TransRec) : Prop :=
  a.gameweek < b.gameweek ∨
    (a.gameweek = b.gameweek ∧ strLe a.managerName b.managerName = true)

instance decTransLE : DecidableRel transLE := fun a b => by
  unfold transLE; infer_instance

/-- Lines 179-180: sort only when the frame is non-empty. (pandas'
default quicksort fixes no tie order among fully equal keys; the
embedding uses insertion sort, which realises the same key order.) -/
def sortTransfers (l : List TransRec) : List TransRec :=
  if l.isEmpty then l else List.insertionSort transLE l

/- ===== Concrete inputs (testable property 7 of the spec, and
witness runs of the other theorems) ===== -/

/-- A one-player catalog: player 7, team 1, position 1. -/
def demoBootstrap : Bootstrap :=
  { elements := [⟨7, "Salah", 1, 1⟩],
    teams := [⟨"Liverpool"⟩],
    positions := [⟨"Midfielder"⟩] }

/-- The scenario of testable property 7: entry 100 played the triple
captain in gameweek 15 on player 7, who scored 18 there. -/
def demoApi : Api :=
  { standings := [(100, "Alice", "Alice FC")],
    bootstrap := demoBootstrap,
    histResp := fun e => if e = 100 then some [⟨"3xc", 15⟩] else none,
    picksResp := fun e gw =>
      if e = 100 ∧ 1 ≤ gw ∧ gw ≤ 38 then some [⟨7, true⟩] else none,
    liveResp := fun gw =>
      if 1 ≤ gw ∧ gw ≤ 38 then some [⟨7, if gw = 15 then 18 else 2⟩] else none,
    transfersResp := fun _ => none }

/-- A two-player catalog for the transfer runs. -/
def demoBootstrap2 : Bootstrap :=
  { elements := [⟨7, "Salah", 1, 1⟩, ⟨9, "Haaland", 2, 2⟩],
    teams := [⟨"Liverpool"⟩, ⟨"Man City"⟩],
    positions := [⟨"Midfielder"⟩, ⟨"Forward"⟩] }

/-- A run with transfers: entry 100 used the free hit in gameweek 4
and logged three transfers, one of which names the unknown player 999. -/
def demoApi2 : Api :=
  { standings := [(100, "Alice", "Alice FC"), (200, "Bob", "Bob FC")],
    bootstrap := demoBootstrap2,
    histResp := fun e => if e = 100 then some [⟨"freehit", 4⟩] else some [],
    picksResp := fun _ _ => none,
    liveResp := fun _ => none,
    transfersResp := fun e =>
      if e = 100 then some [⟨9, 7, 4⟩, ⟨999, 7, 2⟩] else some [⟨7, 9, 3⟩] }

/-- The expected team dict of `demoBootstrap2`. -/
def demoTd : Dict String := dictComp [(7, "Liverpool"), (9, "Man City")]

/-- The expected position dict of `demoBootstrap2`. -/
def demoPd : Dict String := dictComp [(7, "Midfielder"), (9, "Forward")]

/-- The captaincy record `demoApi` emits for entry 100, gameweek 15. -/
def demoCapRec : CapRec :=
  { managerName := "Alice", teamName := "Alice FC", gameweek := 15,
    captainName := "Salah", captainPoints := .int 18,
    tripleCaptainUsed := "Yes" }

/-- A run whose only entry's season-history fetch fails. -/
def demoApi3 : Api :=
  { standings := [(300, "Cara", "Cara FC")],
    bootstrap := demoBootstrap,
    histResp := fun _ => none,
    picksResp := fun _ _ => none,
    liveResp := fun _ => none,
    transfersResp := fun _ => none }

/- ===== Helper lemmas ===== -/

theorem charsLe_total : ∀ x y : List Char, charsLe x y = true ∨ charsLe y x = true := by
  intro x
  induction x with
  | nil => intro y; left; rfl
  | cons a as ih =>
    intro y
    cases y with
    | nil => right; rfl
    | cons b bs =>
      simp only [charsLe]
      by_cases hab : a = b
      · subst hab
        simp only [if_pos rfl]
        exact ih bs
      · have hba : ¬ b = a := fun h => hab h.symm
        rcases lt_trichotomy a b with h | h | h
        · left; simp [hab, h]
        · exact absurd h hab
        · right; simp [hba, h]

theorem charsLe_trans : ∀ x y z : List Char,
    charsLe x y = true → charsLe y z = true → charsLe x z = true := by
  intro x
  induction x with
  | nil => intro y z _ _; rfl
  | cons a as ih =>
    intro y z hxy hyz
    cases y with
    | nil => simp [charsLe] at hxy
    | cons b bs =>
      cases z with
      | nil => simp [charsLe] at hyz
      | cons c cs =>
        simp only [charsLe] at hxy hyz ⊢
        by_cases hab : a = b <;> by_cases hbc : b = c
        · subst hab; subst hbc
          simp only [if_pos rfl] at *
          exact ih bs cs hxy hyz
        · subst hab
          simp [hbc] at hyz ⊢
          simp [hyz]
        · subst hbc
          simp [hab] at hxy ⊢
          simp [hxy]
        · simp [hab] at hxy
          simp [hbc] at hyz
          have hac : a < c := lt_trans hxy hyz
          have hne : ¬ a = c := ne_of_lt hac
          simp [hne, hac]

instance : IsTotal TransRec transLE := by
  constructor
  intro a b
  unfold transLE
  rcases lt_trichotomy a.gameweek b.gameweek with h | h | h
  · left; left; exact h
  · rcases charsLe_total a.managerName.data b.managerName.data with hs | hs
    · left; right; exact ⟨h, hs⟩
    · right; right; exact ⟨h.symm, hs⟩
  · right; left; exact h

instance : IsTrans TransRec transLE := by
  constructor
  intro a b c hab hbc
  unfold transLE at *
  rcases hab with h1 | ⟨h1, s1⟩
  · rcases hbc with h2 | ⟨h2, _⟩
    · exact Or.inl (lt_trans h1 h2)
    · exact Or.inl (h2 ▸ h1)
  · rcases hbc with h2 | ⟨h2, s2⟩
    · exact Or.inl (h1 ▸ h2)
    · exact Or.inr ⟨h1.trans h2, charsLe_trans _ _ _ s1 s2⟩

theorem dictComp_isSome_iff {α : Type} (l : List (Nat × α)) (q : Nat) :
    (dictComp l q).isSome = true ↔ q ∈ l.map Prod.fst := by
  induction l with
  | nil => simp [dictComp, dempty]
  | cons kv rest ih =>
    obtain ⟨k, v⟩ := kv
    simp only [dictComp, List.map_cons, List.mem_cons]
    cases h : dictComp rest q with
    | some w =>
      simp only [Option.isSome_some, true_iff]
      right
      rw [← ih, h]
      rfl
    | none =>
      rw [h] at ih
      simp only [Option.isSome_none, Bool.false_eq_true, false_iff] at ih
      by_cases hq : q = k
      · simp [hq]
      · simp [hq, ih]

theorem foldl_dset_of_not_mem {α : Type} (f : Nat → α) (l : List Nat)
    (d0 : Dict α) (e : Nat) (h : e ∉ l) :
    (l.foldl (fun d x => dset d x (f x)) d0) e = d0 e := by
  induction l generalizing d0 with
  | nil => rfl
  | cons a as ih =>
    simp only [List.foldl_cons]
    have hne : e ≠ a := fun hea => h (hea ▸ List.mem_cons_self a as)
    have has : e ∉ as := fun hmem => h (List.mem_cons_of_mem a hmem)
    rw [ih _ has]
    simp [dset, hne]

theorem foldl_dset_of_mem {α : Type} (f : Nat → α) (l : List Nat)
    (d0 : Dict α) (e : Nat) (h : e ∈ l) :
    (l.foldl (fun d x => dset d x (f x)) d0) e = some (f e) := by
  induction l generalizing d0 with
  | nil => cases h
  | cons a as ih =>
    simp only [List.foldl_cons]
    by_cases has : e ∈ as
    · exact ih _ has
    · have hea : e = a := by
        rcases List.mem_cons.mp h with h1 | h1
        · exact h1
        · exact absurd h1 has
      rw [foldl_dset_of_not_mem _ _ _ _ has]
      simp [dset, hea]

theorem mapOptM_fst_eq {α β : Type} (key : α → Nat) (f : α → Option (Nat × β))
    (hk : ∀ a p, f a = some p → p.1 = key a) :
    ∀ (l : List α) (ps : List (Nat × β)),
      mapOptM f l = some ps → ps.map Prod.fst = l.map key := by
  intro l
  induction l with
  | nil =>
    intro ps h
    cases h
    rfl
  | cons a as ih =>
    intro ps h
    simp only [mapOptM] at h
    cases hg : f a with
    | none => rw [hg] at h; exact Option.noConfusion h
    | some p =>
      rw [hg] at h
      cases hrest : mapOptM f as with
      | none => rw [hrest] at h; exact Option.noConfusion h
      | some rest =>
        rw [hrest] at h
        have hps : p :: rest = ps := Option.some_inj.mp h
        subst hps
        simp only [List.map_cons]
        rw [ih rest hrest, hk a p hg]

theorem applyChip_tc_of_ne (a : ChipAcc) (c : Chip) (h : c.name ≠ "3xc") :
    (applyChip a c).triple_captain_week = a.triple_captain_week := by
  unfold applyChip
  split_ifs <;> rfl

theorem applyChip_fh_of_ne (a : ChipAcc) (c : Chip) (h : c.name ≠ "freehit") :
    (applyChip a c).free_hit_week = a.free_hit_week := by
  unfold applyChip
  split_ifs <;> rfl

theorem foldl_applyChip_tc (cs : List Chip) (a : ChipAcc)
    (h : ∀ c ∈ cs, c.name ≠ "3xc") :
    (cs.foldl applyChip a).triple_captain_week = a.triple_captain_week := by
  induction cs generalizing a with
  | nil => rfl
  | cons c cs ih =>
    simp only [List.foldl_cons]
    rw [ih _ (fun x hx => h x (List.mem_cons_of_mem c hx)),
        applyChip_tc_of_ne a c (h c (List.mem_cons_self c cs))]

theorem foldl_applyChip_fh (cs : List Chip) (a : ChipAcc)
    (h : ∀ c ∈ cs, c.name ≠ "freehit") :
    (cs.foldl applyChip a).free_hit_week = a.free_hit_week := by
  induction cs generalizing a with
  | nil => rfl
  | cons c cs ih =>
    simp only [List.foldl_cons]
    rw [ih _ (fun x hx => h x (List.mem_cons_of_mem c hx)),
        applyChip_fh_of_ne a c (h c (List.mem_cons_self c cs))]

theorem capRowFor_spec (api : Api) (tcd : Dict (Option Nat)) (gw : Nat)
    (pm : Dict Int) (e : Nat) (r : CapRec)
    (h : capRowFor api tcd gw pm e = some r) :
    r.gameweek = gw ∧
    r.tripleCaptainUsed = (if flatGet tcd e = some gw then "Yes" else "No") := by
  cases hp : api.picksResp e gw with
  | none =>
    simp only [capRowFor, hp] at h
    cases h
  | some picks =>
    simp only [capRowFor, hp] at h
    cases hc : firstCaptain picks with
    | none =>
      rw [hc] at h
      simp [truthy] at h
    | some cid =>
      rw [hc] at h
      split at h
      · cases h
        exact ⟨rfl, rfl⟩
      · cases h

theorem transRow_isSome (nd td pd : Dict String) (fhd : Dict (Option Nat))
    (mn tn : String) (e : Nat) (t : Transfer)
    (hin : (nd t.element_in).isSome = true)
    (hout : (nd t.element_out).isSome = true)
    (htd : ∀ k, (nd k).isSome = true → (td k).isSome = true)
    (hpd : ∀ k, (nd k).isSome = true → (pd k).isSome = true) :
    (transRow nd td pd fhd mn tn e t).isSome = true := by
  obtain ⟨po, hpo⟩ := Option.isSome_iff_exists.mp hout
  obtain ⟨ot, hot⟩ := Option.isSome_iff_exists.mp (htd _ hout)
  obtain ⟨op, hop⟩ := Option.isSome_iff_exists.mp (hpd _ hout)
  obtain ⟨pin, hpin⟩ := Option.isSome_iff_exists.mp hin
  obtain ⟨it, hit⟩ := Option.isSome_iff_exists.mp (htd _ hin)
  obtain ⟨ip, hip⟩ := Option.isSome_iff_exists.mp (hpd _ hin)
  unfold transRow
  rw [hpo, hot, hop, hpin, hit, hip]
  rfl

theorem entryTransfers_isSome (nd td pd : Dict String) (fhd : Dict (Option Nat))
    (mn tn : String) (e : Nat)
    (htd : ∀ k, (nd k).isSome = true → (td k).isSome = true)
    (hpd : ∀ k, (nd k).isSome = true → (pd k).isSome = true) :
    ∀ ts, (entryTransfers nd td pd fhd mn tn e ts).isSome = true := by
  intro ts
  induction ts with
  | nil => rfl
  | cons t ts ih =>
    unfold entryTransfers
    by_cases hf : ((nd t.element_in).isSome && (nd t.element_out).isSome) = true
    · rw [if_pos hf]
      obtain ⟨hi, ho⟩ := Bool.and_eq_true_iff.mp hf
      obtain ⟨r, hr⟩ := Option.isSome_iff_exists.mp
        (transRow_isSome nd td pd fhd mn tn e t hi ho htd hpd)
      obtain ⟨rest, hrest⟩ := Option.isSome_iff_exists.mp ih
      rw [hr, hrest]
      rfl
    · rw [if_neg hf]
      exact ih

theorem allTransfersGo_isSome (api : Api) (nd td pd : Dict String)
    (fhd : Dict (Option Nat))
    (htd : ∀ k, (nd k).isSome = true → (td k).isSome = true)
    (hpd : ∀ k, (nd k).isSome = true → (pd k).isSome = true) :
    ∀ es acc, (allTransfersGo api nd td pd fhd es acc).isSome = true := by
  intro es
  induction es with
  | nil => intro acc; rfl
  | cons e es ih =>
    intro acc
    unfold allTransfersGo
    cases ht : api.transfersResp e with
    | none => exact ih acc
    | some ts =>
      obtain ⟨rs, hrs⟩ := Option.isSome_iff_exists.mp
        (entryTransfers_isSome nd td pd fhd (entryNames api e).1
          (entryNames api e).2 e htd hpd ts)
      show ((entryTransfers nd td pd fhd (entryNames api e).1
        (entryNames api e).2 e ts).bind
          (fun rs => allTransfersGo api nd td pd fhd es (acc ++ rs))).isSome = true
      rw [hrs]
      exact ih (acc ++ rs)

/- ===== Claim theorems ===== -/

/-- C4: in the chip loop, a wildcard activation at gameweek ≤ 20 is
recorded in the 'Wildcard 1' field (the 'Wildcard 2' field untouched),
and one at gameweek ≥ 21 in the 'Wildcard 2' field (the 'Wildcard 1'
field untouched); in particular gameweek 20 goes to slot 1 and
gameweek 21 to slot 2. -/
theorem C4_wildcard_threshold (a : ChipAcc) (c : Chip)
    (hw : c.name = "wildcard") :
    (c.event ≤ 20 →
      (applyChip a c).cd.wildcard1 = Cell.nat c.event ∧
      (applyChip a c).cd.wildcard2 = a.cd.wildcard2) ∧
    (21 ≤ c.event →
      (applyChip a c).cd.wildcard2 = Cell.nat c.event ∧
      (applyChip a c).cd.wildcard1 = a.cd.wildcard1) := by
  unfold applyChip
  rw [if_pos hw]
  constructor
  · intro h
    rw [if_pos h]
    exact ⟨rfl, rfl⟩
  · intro h
    have hn : ¬ c.event ≤ 20 := by omega
    rw [if_neg hn]
    exact ⟨rfl, rfl⟩

/-- C4 witness: the boundary activations, gameweek 20 into slot 1 and
gameweek 21 into slot 2, on an initial record. -/
theorem C4_wildcard_threshold_witness :
    (⟨"wildcard", 20⟩ : Chip).name = "wildcard" ∧ (20 : Nat) ≤ 20 ∧
    (applyChip ⟨initChipRec "A" "B", none, none⟩ ⟨"wildcard", 20⟩).cd.wildcard1 =
      Cell.nat 20 ∧
    (applyChip ⟨initChipRec "A" "B", none, none⟩ ⟨"wildcard", 21⟩).cd.wildcard2 =
      Cell.nat 21 :=
  ⟨rfl, by decide,
   ((C4_wildcard_threshold ⟨initChipRec "A" "B", none, none⟩ ⟨"wildcard", 20⟩
      rfl).1 (by decide)).1,
   ((C4_wildcard_threshold ⟨initChipRec "A" "B", none, none⟩ ⟨"wildcard", 21⟩
      rfl).2 (by decide)).1⟩

/-- C5 counterexample: the claim puts a wildcard activation at exactly
gameweek 20 into 'Wildcard 2', but the code records it in 'Wildcard 1'
and leaves 'Wildcard 2' at the sentinel. -/
theorem C5_counterexample :
    (applyChip ⟨initChipRec "A" "B", none, none⟩ ⟨"wildcard", 20⟩).cd.wildcard2 =
      Cell.dash ∧
    (applyChip ⟨initChipRec "A" "B", none, none⟩ ⟨"wildcard", 20⟩).cd.wildcard1 =
      Cell.nat 20 := by
  exact ⟨rfl, rfl⟩

/-- C5 amended: a wildcard activation strictly before gameweek 20 is
'Wildcard 1', an activation at exactly gameweek 20 is also 'Wildcard 1'
(not 'Wildcard 2'), and only an activation at gameweek 21 or later is
'Wildcard 2'. -/
theorem C5_amended_wildcard (a : ChipAcc) (c : Chip)
    (hw : c.name = "wildcard") :
    (c.event < 20 → (applyChip a c).cd.wildcard1 = Cell.nat c.event) ∧
    (c.event = 20 →
      (applyChip a c).cd.wildcard1 = Cell.nat c.event ∧
      (applyChip a c).cd.wildcard2 = a.cd.wildcard2) ∧
    (21 ≤ c.event → (applyChip a c).cd.wildcard2 = Cell.nat c.event) := by
  unfold applyChip
  rw [if_pos hw]
  refine ⟨fun h => ?_, fun h => ?_, fun h => ?_⟩
  · rw [if_pos (by omega : c.event ≤ 20)]
  · rw [if_pos (by omega : c.event ≤ 20)]
    exact ⟨rfl, rfl⟩
  · rw [if_neg (by omega : ¬ c.event ≤ 20)]

/-- C5 amended witness: gameweeks 19, 20 and 21 on an initial record. -/
theorem C5_amended_wildcard_witness :
    (⟨"wildcard", 20⟩ : Chip).name = "wildcard" ∧
    (applyChip ⟨initChipRec "A" "B", none, none⟩ ⟨"wildcard", 19⟩).cd.wildcard1 =
      Cell.nat 19 ∧
    (applyChip ⟨initChipRec "A" "B", none, none⟩ ⟨"wildcard", 20⟩).cd.wildcard1 =
      Cell.nat 20 ∧
    (applyChip ⟨initChipRec "A" "B", none, none⟩ ⟨"wildcard", 21⟩).cd.wildcard2 =
      Cell.nat 21 :=
  ⟨rfl,
   (C5_amended_wildcard ⟨initChipRec "A" "B", none, none⟩ ⟨"wildcard", 19⟩
      rfl).1 (by decide),
   ((C5_amended_wildcard ⟨initChipRec "A" "B", none, none⟩ ⟨"wildcard", 20⟩
      rfl).2.1 rfl).1,
   (C5_amended_wildcard ⟨initChipRec "A" "B", none, none⟩ ⟨"wildcard", 21⟩
      rfl).2.2 (by decide)⟩

/-- C6: on the concrete scenario (entry 100 with chip history
3xc at gameweek 15, player 7 captain in every gameweek, live score 18
for player 7 in gameweek 15), the chip record is exactly Triple
Captain 15 / player "Salah" / 18 points, the gameweek-15 captaincy
record is flagged "Yes", and every other captaincy record is "No". -/
theorem C6_end_to_end :
    chip_data demoApi =
      [{ managerName := "Alice", teamName := "Alice FC",
         wildcard1 := .dash, wildcard2 := .dash, freeHit := .dash,
         benchBoost := .dash, tripleCaptain := .nat 15,
         tripleCaptainPlayer := .str "Salah", tcPoints := .int 18 }] ∧
    (∃ r ∈ captaincy_data demoApi,
      r.gameweek = 15 ∧ r.managerName = "Alice" ∧ r.tripleCaptainUsed = "Yes") ∧
    (∀ r ∈ captaincy_data demoApi, r.gameweek ≠ 15 → r.tripleCaptainUsed = "No") :=
  ⟨by decide, by decide, by decide⟩

/-- C2: the sorted transfer table is non-decreasing by gameweek and,
among equal gameweeks, non-decreasing by manager name (code-point
lexical order); the sort permutes the records, and an empty result
set is returned unsorted as-is. -/
theorem C2_transfer_sort :
    (∀ l : List TransRec,
      (sortTransfers l).Perm l ∧
      (sortTransfers l).Pairwise (fun a b =>
        a.gameweek ≤ b.gameweek ∧
        (a.gameweek = b.gameweek → strLe a.managerName b.managerName = true))) ∧
    sortTransfers [] = [] := by
  constructor
  · intro l
    unfold sortTransfers
    by_cases h : l.isEmpty
    · rw [if_pos h]
      rw [List.isEmpty_iff.mp h]
      exact ⟨List.Perm.refl [], List.Pairwise.nil⟩
    · rw [if_neg h]
      refine ⟨List.perm_insertionSort transLE l, ?_⟩
      have hp : (List.insertionSort transLE l).Pairwise transLE :=
        List.sorted_insertionSort transLE l
      refine hp.imp ?_
      intro a b hab
      rcases hab with h1 | ⟨h1, h2⟩
      · exact ⟨le_of_lt h1, fun he => absurd he (ne_of_lt h1)⟩
      · exact ⟨le_of_eq h1, fun _ => h2⟩
  · rfl

/-- C3: in one entry's transfer loop, exactly the transfers whose
incoming and outgoing ids are both in the catalog produce records (one
each), and every emitted record comes from such a transfer. -/
theorem C3_transfer_filter (nd td pd : Dict String) (fhd : Dict (Option Nat))
    (mn tn : String) (e : Nat) :
    ∀ (ts : List Transfer) (rs : List TransRec),
      entryTransfers nd td pd fhd mn tn e ts = some rs →
      rs.length = (ts.filter (fun t =>
        (nd t.element_in).isSome && (nd t.element_out).isSome)).length ∧
      ∀ r ∈ rs, ∃ t ∈ ts,
        (nd t.element_in).isSome = true ∧ (nd t.element_out).isSome = true ∧
        transRow nd td pd fhd mn tn e t = some r := by
  intro ts
  induction ts with
  | nil =>
    intro rs h
    cases h
    exact ⟨rfl, fun r hr => absurd hr (List.not_mem_nil r)⟩
  | cons t ts ih =>
    intro rs h
    unfold entryTransfers at h
    by_cases hf : ((nd t.element_in).isSome && (nd t.element_out).isSome) = true
    · rw [if_pos hf] at h
      cases htr : transRow nd td pd fhd mn tn e t with
      | none =>
        rw [htr] at h
        exact Option.noConfusion h
      | some r0 =>
        rw [htr] at h
        cases hrest : entryTransfers nd td pd fhd mn tn e ts with
        | none =>
          rw [hrest] at h
          exact Option.noConfusion h
        | some rest =>
          rw [hrest] at h
          have hrs : r0 :: rest = rs := Option.some_inj.mp h
          subst hrs
          obtain ⟨ihl, ihm⟩ := ih rest hrest
          constructor
          · simp only [List.filter_cons, hf, if_pos, List.length_cons, ihl]
          · intro r hr
            rcases List.mem_cons.mp hr with hr0 | hr'
            · subst hr0
              exact ⟨t, List.mem_cons_self t ts,
                (Bool.and_eq_true_iff.mp hf).1, (Bool.and_eq_true_iff.mp hf).2,
                htr⟩
            · obtain ⟨u, hu, h1, h2, h3⟩ := ihm r hr'
              exact ⟨u, List.mem_cons_of_mem t hu, h1, h2, h3⟩
    · rw [if_neg hf] at h
      obtain ⟨ihl, ihm⟩ := ih rs h
      constructor
      · rw [ihl]
        have hfalse : ((nd t.element_in).isSome && (nd t.element_out).isSome) = false :=
          Bool.not_eq_true _ ▸ Bool.of_not_eq_true hf
        simp [List.filter_cons, hfalse]
      · intro r hr
        obtain ⟨u, hu, h1, h2, h3⟩ := ihm r hr
        exact ⟨u, List.mem_cons_of_mem t hu, h1, h2, h3⟩

/-- C3 witness: entry 100's demo transfer log, where the transfer
naming unknown player 999 is dropped and the catalog-resolvable
transfer survives. -/
theorem C3_transfer_filter_witness :
    entryTransfers (id_to_name demoBootstrap2) demoTd demoPd
      (free_hit_by_entry demoApi2) "Alice" "Alice FC" 100
      [⟨9, 7, 4⟩, ⟨999, 7, 2⟩] =
      some [{ managerName := "Alice", teamName := "Alice FC", gameweek := 4,
              playerOut := "Salah", outTeam := "Liverpool",
              outPosition := "Midfielder", playerIn := "Haaland",
              inTeam := "Man City", inPosition := "Forward",
              freeHitActive := "Yes" }] ∧
    ([{ managerName := "Alice", teamName := "Alice FC", gameweek := 4,
        playerOut := "Salah", outTeam := "Liverpool",
        outPosition := "Midfielder", playerIn := "Haaland",
        inTeam := "Man City", inPosition := "Forward",
        freeHitActive := "Yes" }] : List TransRec).length =
      (([⟨9, 7, 4⟩, ⟨999, 7, 2⟩] : List Transfer).filter (fun t =>
        (id_to_name demoBootstrap2 t.element_in).isSome &&
        (id_to_name demoBootstrap2 t.element_out).isSome)).length :=
  ⟨by decide,
   (C3_transfer_filter (id_to_name demoBootstrap2) demoTd demoPd
      (free_hit_by_entry demoApi2) "Alice" "Alice FC" 100
      [⟨9, 7, 4⟩, ⟨999, 7, 2⟩] _ (by decide)).1⟩

/-- C1: a captaincy record emitted for entry `e` at gameweek `gw`
carries 'Triple Captain Used' = "Yes" exactly when `gw` is the
triple-captain gameweek the chip step stored for `e`, and "No" exactly
otherwise (a different stored gameweek, or none stored). -/
theorem C1_tc_flag (api : Api) (gw : Nat) (pm : Dict Int) (e : Nat)
    (r : CapRec)
    (h : capRowFor api (triple_captain_week_by_entry api) gw pm e = some r) :
    (r.tripleCaptainUsed = "Yes" ↔
      flatGet (triple_captain_week_by_entry api) e = some gw) ∧
    (r.tripleCaptainUsed = "No" ↔
      ¬ flatGet (triple_captain_week_by_entry api) e = some gw) := by
  obtain ⟨-, hflag⟩ := capRowFor_spec api _ gw pm e r h
  rw [hflag]
  by_cases hc : flatGet (triple_captain_week_by_entry api) e = some gw
  · rw [if_pos hc]
    exact ⟨⟨fun _ => hc, fun _ => rfl⟩,
           ⟨fun hno => absurd hno (by decide), fun hn => absurd hc hn⟩⟩
  · rw [if_neg hc]
    exact ⟨⟨fun hyes => absurd hyes (by decide), fun hcc => absurd hcc hc⟩,
           ⟨fun _ => hc, fun _ => rfl⟩⟩

/-- C1 witness: entry 100's gameweek-15 record in the demo run is
flagged "Yes", and 15 is indeed the stored triple-captain gameweek. -/
theorem C1_tc_flag_witness :
    capRowFor demoApi (triple_captain_week_by_entry demoApi) 15
      (pointsMapOf [⟨7, 18⟩]) 100 = some demoCapRec ∧
    (demoCapRec.tripleCaptainUsed = "Yes" ↔
      flatGet (triple_captain_week_by_entry demoApi) 100 = some 15) :=
  ⟨by decide,
   (C1_tc_flag demoApi 15 (pointsMapOf [⟨7, 18⟩]) 100 demoCapRec (by decide)).1⟩

theorem transRow_spec (nd td pd : Dict String) (fhd : Dict (Option Nat))
    (mn tn : String) (e : Nat) (t : Transfer) (r : TransRec)
    (h : transRow nd td pd fhd mn tn e t = some r) :
    r.gameweek = t.event ∧
    r.freeHitActive = (if flatGet fhd e = some t.event then "Yes" else "No") := by
  unfold transRow at h
  cases h1 : nd t.element_out <;> rw [h1] at h
  · exact Option.noConfusion h
  cases h2 : td t.element_out <;> rw [h2] at h
  · exact Option.noConfusion h
  cases h3 : pd t.element_out <;> rw [h3] at h
  · exact Option.noConfusion h
  cases h4 : nd t.element_in <;> rw [h4] at h
  · exact Option.noConfusion h
  cases h5 : td t.element_in <;> rw [h5] at h
  · exact Option.noConfusion h
  cases h6 : pd t.element_in <;> rw [h6] at h
  · exact Option.noConfusion h
  cases h
  exact ⟨rfl, rfl⟩

theorem chipRow_hist_none (api : Api) (e : Nat)
    (hnone : api.histResp e = none) :
    chipRow api e =
      (initChipRec (entryNames api e).1 (entryNames api e).2, none, none) := by
  simp [chipRow, hnone, truthy]

/-- C7: every entry contributes exactly one chip record, and an entry
whose season-history fetch failed still contributes a record whose
seven chip fields are all the sentinel `'-'` (so the run is never
aborted by a per-entry history failure). -/
theorem C7_history_failure_sentinel (api : Api) :
    (chip_data api).length = (entries api).length ∧
    ∀ e ∈ entries api, api.histResp e = none →
      (chipRow api e).1 ∈ chip_data api ∧
      (chipRow api e).1.wildcard1 = Cell.dash ∧
      (chipRow api e).1.wildcard2 = Cell.dash ∧
      (chipRow api e).1.freeHit = Cell.dash ∧
      (chipRow api e).1.benchBoost = Cell.dash ∧
      (chipRow api e).1.tripleCaptain = Cell.dash ∧
      (chipRow api e).1.tripleCaptainPlayer = Cell.dash ∧
      (chipRow api e).1.tcPoints = Cell.dash := by
  constructor
  · simp [chip_data]
  · intro e he hnone
    refine ⟨List.mem_map_of_mem _ he, ?_⟩
    rw [chipRow_hist_none api e hnone]
    exact ⟨rfl, rfl, rfl, rfl, rfl, rfl, rfl⟩

/-- C7 witness: the run whose single entry's history fetch fails emits
one all-sentinel record. -/
theorem C7_history_failure_sentinel_witness :
    (300 ∈ entries demoApi3 ∧ demoApi3.histResp 300 = none) ∧
    (chip_data demoApi3).length = (entries demoApi3).length ∧
    (chipRow demoApi3 300).1.tripleCaptain = Cell.dash :=
  ⟨⟨by decide, rfl⟩,
   (C7_history_failure_sentinel demoApi3).1,
   ((C7_history_failure_sentinel demoApi3).2 300 (by decide) rfl).2.2.2.2.2.1⟩

/-- C8: a gameweek whose live fetch is unavailable contributes no
captaincy record at all (every emitted record's gameweek had live data),
while within a live gameweek an entry whose picks fetch fails or whose
picks name no captain is skipped alone: any other entry's produced row
still reaches the final table. -/
theorem C8_captaincy_skip_granularity (api : Api) :
    (∀ r ∈ captaincy_data api, (api.liveResp r.gameweek).isSome = true) ∧
    (∀ gw ∈ gwRange, ∀ les, api.liveResp gw = some les →
      ∀ e ∈ entries api,
        (api.picksResp e gw = none →
          capRowFor api (triple_captain_week_by_entry api) gw
            (pointsMapOf les) e = none) ∧
        (∀ ps, api.picksResp e gw = some ps → firstCaptain ps = none →
          capRowFor api (triple_captain_week_by_entry api) gw
            (pointsMapOf les) e = none) ∧
        (∀ r, capRowFor api (triple_captain_week_by_entry api) gw
            (pointsMapOf les) e = some r →
          r ∈ captaincy_data api)) := by
  constructor
  · intro r hr
    unfold captaincy_data at hr
    obtain ⟨l, hl, hrl⟩ := List.mem_flatten.mp hr
    obtain ⟨gw, hgw, hleq⟩ := List.mem_map.mp hl
    rw [← hleq] at hrl
    cases hle : api.liveResp gw with
    | none =>
      simp only [capGw, hle] at hrl
      exact absurd hrl (List.not_mem_nil r)
    | some les =>
      simp only [capGw, hle] at hrl
      obtain ⟨e, he, hcap⟩ := List.mem_filterMap.mp hrl
      have hgw' := (capRowFor_spec api _ gw _ e r hcap).1
      rw [hgw', hle]
      rfl
  · intro gw hgw les hles e he
    refine ⟨?_, ?_, ?_⟩
    · intro hp
      simp [capRowFor, hp]
    · intro ps hps hfc
      simp [capRowFor, hps, hfc, truthy]
    · intro r hcap
      unfold captaincy_data
      refine List.mem_flatten.mpr
        ⟨capGw api (triple_captain_week_by_entry api) gw,
         List.mem_map_of_mem _ hgw, ?_⟩
      simp only [capGw, hles]
      exact List.mem_filterMap.mpr ⟨e, he, hcap⟩

/-- C8 witness: in the demo run, gameweek 15 has live data and entry
100's produced row reaches the captaincy table. -/
theorem C8_captaincy_skip_granularity_witness :
    (15 ∈ gwRange ∧ demoApi.liveResp 15 = some [⟨7, 18⟩] ∧
      100 ∈ entries demoApi) ∧
    demoCapRec ∈ captaincy_data demoApi :=
  ⟨⟨by decide, rfl, by decide⟩,
   ((C8_captaincy_skip_granularity demoApi).2 15 (by decide) [⟨7, 18⟩] rfl
      100 (by decide)).2.2 demoCapRec (by decide)⟩

theorem chipRow_tc_eq (api : Api) (e : Nat) (cs : List Chip)
    (hcs : api.histResp e = some cs) :
    (chipRow api e).2.2 =
      (cs.foldl applyChip
        ⟨initChipRec (entryNames api e).1 (entryNames api e).2, none,
          none⟩).triple_captain_week := by
  simp [chipRow, hcs]

theorem chipRow_fh_eq (api : Api) (e : Nat) (cs : List Chip)
    (hcs : api.histResp e = some cs) :
    (chipRow api e).2.1 =
      (cs.foldl applyChip
        ⟨initChipRec (entryNames api e).1 (entryNames api e).2, none,
          none⟩).free_hit_week := by
  simp [chipRow, hcs]

/-- C9: after the chip step both side tables hold a key for every
league entry; the stored value is `None` when the history fetch failed
or the chip never occurs in the history; and an entry whose stored
gameweek is absent gets the flag "No" in every captaincy row and every
transfer row it produces. -/
theorem C9_side_tables_total (api : Api) :
    ∀ e ∈ entries api,
      triple_captain_week_by_entry api e = some (chipRow api e).2.2 ∧
      free_hit_by_entry api e = some (chipRow api e).2.1 ∧
      (api.histResp e = none →
        (chipRow api e).2.2 = none ∧ (chipRow api e).2.1 = none) ∧
      (∀ cs, api.histResp e = some cs → (∀ c ∈ cs, c.name ≠ "3xc") →
        (chipRow api e).2.2 = none) ∧
      (∀ cs, api.histResp e = some cs → (∀ c ∈ cs, c.name ≠ "freehit") →
        (chipRow api e).2.1 = none) ∧
      (flatGet (triple_captain_week_by_entry api) e = none →
        ∀ (gw : Nat) (pm : Dict Int) (r : CapRec),
          capRowFor api (triple_captain_week_by_entry api) gw pm e = some r →
          r.tripleCaptainUsed = "No") ∧
      (flatGet (free_hit_by_entry api) e = none →
        ∀ (nd td pd : Dict String) (mn tn : String) (t : Transfer)
          (r : TransRec),
          transRow nd td pd (free_hit_by_entry api) mn tn e t = some r →
          r.freeHitActive = "No") := by
  intro e he
  refine ⟨?_, ?_, ?_, ?_, ?_, ?_, ?_⟩
  · exact foldl_dset_of_mem _ _ _ _ he
  · exact foldl_dset_of_mem _ _ _ _ he
  · intro hnone
    rw [chipRow_hist_none api e hnone]
    exact ⟨rfl, rfl⟩
  · intro cs hcs hno
    rw [chipRow_tc_eq api e cs hcs]
    exact foldl_applyChip_tc cs _ hno
  · intro cs hcs hno
    rw [chipRow_fh_eq api e cs hcs]
    exact foldl_applyChip_fh cs _ hno
  · intro hflat gw pm r hcap
    have hflag := (capRowFor_spec api _ gw pm e r hcap).2
    rw [hflag, if_neg (fun hcon => by rw [hflat] at hcon; cases hcon)]
  · intro hflat nd td pd mn tn t r htr
    have hflag := (transRow_spec nd td pd _ mn tn e t r htr).2
    rw [hflag, if_neg (fun hcon => by rw [hflat] at hcon; cases hcon)]

/-- C9 witness: in the failing-history demo run, entry 300 is keyed in
the triple-captain side table with stored value `None`. -/
theorem C9_side_tables_total_witness :
    300 ∈ entries demoApi3 ∧
    triple_captain_week_by_entry demoApi3 300 = some (chipRow demoApi3 300).2.2 ∧
    (chipRow demoApi3 300).2.2 = none ∧ (chipRow demoApi3 300).2.1 = none :=
  ⟨by decide,
   (C9_side_tables_total demoApi3 300 (by decide)).1,
   (C9_side_tables_total demoApi3 300 (by decide)).2.2.1 rfl⟩

/-- C10: the three catalog dicts are all keyed by exactly the element
ids of the bootstrap (identical key sets), so for a transfer that
passed the `id_to_name` membership filter the six direct indexings
cannot miss: the whole transfer aggregation always returns a value —
the `KeyError` branch is unreachable. -/
theorem C10_catalog_key_sets (b : Bootstrap) (td pd : Dict String)
    (htd : id_to_team b = some td) (hpd : id_to_position b = some pd) :
    (∀ k, ((id_to_name b) k).isSome = true ↔ (td k).isSome = true) ∧
    (∀ k, ((id_to_name b) k).isSome = true ↔ (pd k).isSome = true) ∧
    (∀ api : Api, (all_transfers api (id_to_name b) td pd).isSome = true) := by
  have hname : ∀ k, ((id_to_name b) k).isSome = true ↔
      k ∈ b.elements.map (fun e => e.id) := by
    intro k
    rw [id_to_name, dictComp_isSome_iff, List.map_map]
    rfl
  have hkteam : ∀ (a : Element) (p : Nat × String),
      (b.teams.get? (a.team - 1)).map (fun t => (a.id, t.name)) = some p →
      p.1 = a.id := by
    intro a p hp
    cases hg : b.teams.get? (a.team - 1) with
    | none => rw [hg] at hp; exact Option.noConfusion hp
    | some t => rw [hg] at hp; cases hp; rfl
  have hkpos : ∀ (a : Element) (p : Nat × String),
      (b.positions.get? (a.element_type - 1)).map
        (fun q => (a.id, q.singular_name)) = some p →
      p.1 = a.id := by
    intro a p hp
    cases hg : b.positions.get? (a.element_type - 1) with
    | none => rw [hg] at hp; exact Option.noConfusion hp
    | some q => rw [hg] at hp; cases hp; rfl
  have hteam : ∀ k, (td k).isSome = true ↔
      k ∈ b.elements.map (fun e => e.id) := by
    intro k
    unfold id_to_team at htd
    cases hm : mapOptM (fun e =>
        (b.teams.get? (e.team - 1)).map (fun t => (e.id, t.name)))
        b.elements with
    | none => rw [hm] at htd; exact Option.noConfusion htd
    | some ps =>
      rw [hm] at htd
      have hdc : dictComp ps = td := Option.some_inj.mp htd
      rw [← hdc, dictComp_isSome_iff,
        mapOptM_fst_eq (fun e => e.id) _ hkteam b.elements ps hm]
  have hpos : ∀ k, (pd k).isSome = true ↔
      k ∈ b.elements.map (fun e => e.id) := by
    intro k
    unfold id_to_position at hpd
    cases hm : mapOptM (fun e =>
        (b.positions.get? (e.element_type - 1)).map
          (fun q => (e.id, q.singular_name))) b.elements with
    | none => rw [hm] at hpd; exact Option.noConfusion hpd
    | some ps =>
      rw [hm] at hpd
      have hdc : dictComp ps = pd := Option.some_inj.mp hpd
      rw [← hdc, dictComp_isSome_iff,
        mapOptM_fst_eq (fun e => e.id) _ hkpos b.elements ps hm]
  refine ⟨fun k => (hname k).trans (hteam k).symm,
          fun k => (hname k).trans (hpos k).symm, ?_⟩
  intro api
  unfold all_transfers
  exact allTransfersGo_isSome api _ td pd _
    (fun k hk => (hteam k).mpr ((hname k).mp hk))
    (fun k hk => (hpos k).mpr ((hname k).mp hk)) _ _

/-- C10 witness: the two-player demo catalog, whose team and position
dicts share the name dict's key set, and the demo transfer run that
completes without a missing key. -/
theorem C10_catalog_key_sets_witness :
    id_to_team demoBootstrap2 = some demoTd ∧
    id_to_position demoBootstrap2 = some demoPd ∧
    ((id_to_name demoBootstrap2 9).isSome = true ↔
      (demoTd 9).isSome = true) ∧
    (all_transfers demoApi2 (id_to_name demoBootstrap2) demoTd
      demoPd).isSome = true :=
  ⟨rfl, rfl,
   (C10_catalog_key_sets demoBootstrap2 demoTd demoPd rfl rfl).1 9,
   (C10_catalog_key_sets demoBootstrap2 demoTd demoPd rfl rfl).2.2 demoApi2⟩
